import Mathlib

/-!
Verification development for the `openprocurement.auctions.dgf` models
(`src/openprocurement/auctions/dgf/models.py`), centred on the deadline
evaluator `Auction.next_check`, the serialized `tenderPeriod` fallback
`Auction.auction_tenderPeriod`, the `Document` field validators, and the
`Auction.status` field default.

Timestamps are modelled as an absolute instant (an integer, in abstract
units) together with a timezone tag.  Python `datetime.astimezone`
preserves the instant and replaces the timezone tag; `datetime`
comparison, `min` and `max` compare the absolute instants only.

External collaborators imported by the module but not part of it
(`calculate_business_date`, `calc_auction_end_time`, `TZ`,
`COMPLAINT_STAND_STILL_TIME`, `block_complaint_status`) are modelled from
the specification; each such definition carries a comment saying so.
-/

set_option autoImplicit false

/-- A timezone-aware timestamp: absolute instant plus a timezone tag. -/
structure Timestamp where
  instant : Int
  tz : Int
deriving DecidableEq, Repr

/-- Python `datetime.astimezone`: same instant, new timezone tag. -/
def Timestamp.astimezone (t : Timestamp) (z : Int) : Timestamp :=
  ⟨t.instant, z⟩

/-- Modelled from the spec: the one fixed system timezone `TZ`
(imported from `openprocurement.api.models`, not part of src/).  Only its
identity as a tag matters, never its value. -/
def TZ : Int := 2

/-- Python `min` over a non-empty list of datetimes: first element with the
least instant (strict comparison keeps the earlier occurrence on ties);
`none` on the empty list, where the code returns `None` instead. -/
def pymin : List Timestamp → Option Timestamp
  | [] => none
  | t :: ts => some (ts.foldl (fun m x => if x.instant < m.instant then x else m) t)

/-- Python `max` over a list of datetimes, `none` on the empty list:
first element with the greatest instant. -/
def pymax : List Timestamp → Option Timestamp
  | [] => none
  | t :: ts => some (ts.foldl (fun m x => if m.instant < x.instant then x else m) t)

/-- `Period`: optional start and end timestamps (models.py imports
`Period` from the api package; only these two fields are read here). -/
structure Period where
  startDate : Option Timestamp
  endDate : Option Timestamp
deriving DecidableEq, Repr

/-- The fields of `Complaint` read by `next_check`. -/
structure Complaint where
  status : String
  dateSubmitted : Option Timestamp
  dateAnswered : Option Timestamp
  relatedLot : Option String
deriving DecidableEq, Repr

/-- The fields of `Award` read by `next_check`.  `next_check` accesses
`a.complaintPeriod.endDate` unconditionally, so `complaintPeriod` is a
plain `Period` here. -/
structure Award where
  status : String
  lotID : Option String
  complaintPeriod : Period
  complaints : List Complaint
deriving DecidableEq, Repr

/-- The fields of `Lot` read by `next_check`. -/
structure Lot where
  id : String
  status : String
  auctionPeriod : Option Period
  numberOfBids : Nat
deriving DecidableEq, Repr

/-- The fields of `Auction` read by the functions verified here. -/
structure Auction where
  status : String
  tenderPeriod : Option Period
  auctionPeriod : Option Period
  numberOfBids : Nat
  lots : List Lot
  awards : List Award
  complaints : List Complaint
deriving DecidableEq, Repr

/-- Modelled from the spec: the fixed set of "blocking" complaint
statuses (`block_complaint_status`, an external policy constant the spec
gives as \x7bclaim, answered, pending\x7d; defined on the flash base
model, not in src/). -/
def block_complaint_status : List String := ["claim", "answered", "pending"]

/-- Modelled from the spec: `COMPLAINT_STAND_STILL_TIME`, a fixed
configured stand-still duration (imported from the flash package, not in
src/), in the abstract time units of `Timestamp.instant`. -/
def COMPLAINT_STAND_STILL_TIME : Int := 3

/-- Modelled from the spec: `calculate_business_date(anchor, offset,
auction)` shifts `anchor` by `offset` (business-day adjustment is the
external BusinessCalendar collaborators concern and is irrelevant to
every claim, so the shift is plain addition here); the function is
imported from `openprocurement.api.utils`, not in src/.  Shifting keeps
the representation, hence the timezone tag, of the anchor. -/
def calculate_business_date (anchor : Timestamp) (offset : Int) (_a : Auction) : Timestamp :=
  ⟨anchor.instant + offset, anchor.tz⟩

/-- Modelled from the spec: `calc_auction_end_time(bids, start)` (imported
from the flash package, not in src/) returns `start` plus a fixed baseline
plus a per-bid duration, so it is monotone in `bids`; it keeps the
timezone of `start`. -/
def calc_auction_end_time (bids : Nat) (start : Timestamp) : Timestamp :=
  ⟨start.instant + 90 + 9 * bids, start.tz⟩

/-- Python `str.startswith`: the second string is a prefix of the first,
stated on the character lists so that it evaluates by reduction. -/
def startswith (s p : String) : Bool :=
  p.data.isPrefixOf s.data

/-- `''` default for `self.awards[-1].status if self.awards else ''`. -/
def lastAwardStatus (awards : List Award) : String :=
  match awards.getLast? with
  | some aw => aw.status
  | none => ""

/-- The list comprehension `[a.complaintPeriod.endDate.astimezone(TZ) for a
in awards if a.complaintPeriod.endDate]` (models.py lines 163-167 and
189-193). -/
def standStillEnds (awards : List Award) : List Timestamp :=
  awards.filterMap (fun aw => aw.complaintPeriod.endDate.map (fun e => e.astimezone TZ))

/-- Condition of the first branch (line 140): `self.status ==
'active.tendering' and self.tenderPeriod and self.tenderPeriod.endDate`. -/
def cond_a (a : Auction) : Bool :=
  a.status == "active.tendering" &&
    (match a.tenderPeriod with
     | some tp => tp.endDate.isSome
     | none => false)

/-- Body of the first branch (line 141): append `tenderPeriod.endDate`
converted to `TZ`. -/
def branch_a (a : Auction) : List Timestamp :=
  match a.tenderPeriod with
  | some tp =>
    match tp.endDate with
    | some ed => [ed.astimezone TZ]
    | none => []
  | none => []

/-- Condition of the second branch (line 142): no lots, status
`active.auction`, `auctionPeriod.startDate` set, `auctionPeriod.endDate`
not set. -/
def cond_b (a : Auction) : Bool :=
  a.lots.isEmpty && a.status == "active.auction" &&
    (match a.auctionPeriod with
     | some p => p.startDate.isSome && !p.endDate.isSome
     | none => false)

/-- Body of the second branch (lines 143-146): the auction start if still
ahead, else the computed round end if still ahead. -/
def branch_b (a : Auction) (now : Timestamp) : List Timestamp :=
  match a.auctionPeriod with
  | some p =>
    match p.startDate with
    | some sd =>
      if now.instant < sd.instant then [sd.astimezone TZ]
      else if now.instant < ((calc_auction_end_time a.numberOfBids sd).astimezone TZ).instant then
        [(calc_auction_end_time a.numberOfBids sd).astimezone TZ]
      else []
    | none => []
  | none => []

/-- Condition of the third branch (line 147): has lots and status
`active.auction`. -/
def cond_c (a : Auction) : Bool :=
  !a.lots.isEmpty && a.status == "active.auction"

/-- Per-lot body of the third branch (lines 148-154): skip lots that are
not active, lack an `auctionPeriod.startDate`, or already carry an
`auctionPeriod.endDate`; otherwise the same two sub-cases as branch two. -/
def lotAuctionCheck (now : Timestamp) (lot : Lot) : List Timestamp :=
  if lot.status != "active" then []
  else
    match lot.auctionPeriod with
    | some p =>
      match p.startDate with
      | some sd =>
        if p.endDate.isSome then []
        else if now.instant < sd.instant then [sd.astimezone TZ]
        else if now.instant < ((calc_auction_end_time lot.numberOfBids sd).astimezone TZ).instant then
          [(calc_auction_end_time lot.numberOfBids sd).astimezone TZ]
        else []
      | none => []
    | none => []

/-- Body of the third branch: the per-lot loop. -/
def branch_c (a : Auction) (now : Timestamp) : List Timestamp :=
  a.lots.flatMap (lotAuctionCheck now)

/-- Condition of the fourth branch (lines 155-162): no lots, status
`active.awarded`, no blocking top-level complaint and no blocking
award-nested complaint. -/
def cond_d (a : Auction) : Bool :=
  a.lots.isEmpty && a.status == "active.awarded" &&
    !(a.complaints.any (fun c => block_complaint_status.contains c.status)) &&
    !(a.awards.any (fun aw => aw.complaints.any (fun c => block_complaint_status.contains c.status)))

/-- Body of the fourth branch (lines 163-171): append the maximum of the
award stand-still end dates when any exist and the last award is
unsuccessful. -/
def branch_d (a : Auction) : List Timestamp :=
  match pymax (standStillEnds a.awards) with
  | some m => if lastAwardStatus a.awards == "unsuccessful" then [m] else []
  | none => []

/-- Condition of the fifth branch (lines 172-175): has lots, status in
\x7bactive.qualification, active.awarded\x7d, and no blocking top-level
complaint unrelated to any lot. -/
def cond_e (a : Auction) : Bool :=
  !a.lots.isEmpty && (a.status == "active.qualification" || a.status == "active.awarded") &&
    !(a.complaints.any (fun c => block_complaint_status.contains c.status && c.relatedLot.isNone))

/-- The awards of one lot: `[i for i in self.awards if i.lotID == lot.id]`
(line 179). -/
def lotAwards (a : Auction) (lot : Lot) : List Award :=
  a.awards.filter (fun i => i.lotID == some lot.id)

/-- Per-lot body of the fifth branch (lines 176-196). -/
def lotAwardCheck (a : Auction) (lot : Lot) : List Timestamp :=
  if lot.status != "active" then []
  else
    let pending_complaints :=
      a.complaints.any (fun i => block_complaint_status.contains i.status && i.relatedLot == some lot.id)
    let pending_awards_complaints :=
      (lotAwards a lot).any (fun aw => aw.complaints.any (fun i => block_complaint_status.contains i.status))
    if !pending_complaints && !pending_awards_complaints then
      match pymax (standStillEnds (lotAwards a lot)) with
      | some m => if lastAwardStatus (lotAwards a lot) == "unsuccessful" then [m] else []
      | none => []
    else []

/-- Body of the fifth branch: the per-lot loop. -/
def branch_e (a : Auction) : List Timestamp :=
  a.lots.flatMap (lotAwardCheck a)

/-- The `elif` chain of `next_check` (lines 140-196): first matching
branch wins, later branches are never evaluated. -/
def mainChecks (a : Auction) (now : Timestamp) : List Timestamp :=
  if cond_a a then branch_a a
  else if cond_b a then branch_b a now
  else if cond_c a then branch_c a now
  else if cond_d a then branch_d a
  else if cond_e a then branch_e a
  else []

/-- One complaint contribution of the final block (lines 200-203 and
206-209): a claim with a submission date, or an answered complaint with an
answer date, yields one business-date candidate. -/
def complaintCheck (a : Auction) (c : Complaint) : List Timestamp :=
  if c.status == "claim" && c.dateSubmitted.isSome then
    match c.dateSubmitted with
    | some d => [calculate_business_date d COMPLAINT_STAND_STILL_TIME a]
    | none => []
  else if c.status == "answered" && c.dateAnswered.isSome then
    match c.dateAnswered with
    | some d => [calculate_business_date d COMPLAINT_STAND_STILL_TIME a]
    | none => []
  else []

/-- The final block (lines 197-209): stand-still candidates from every
top-level complaint and every award-nested complaint. -/
def complaintChecks (a : Auction) : List Timestamp :=
  a.complaints.flatMap (complaintCheck a) ++
    a.awards.flatMap (fun aw => aw.complaints.flatMap (complaintCheck a))

/-- The full candidate list built by `next_check`: the `elif` chain, then,
when the status starts with `active`, the complaint stand-still block. -/
def allChecks (a : Auction) (now : Timestamp) : List Timestamp :=
  mainChecks a now ++ (if startswith a.status "active" then complaintChecks a else [])

/-- `Auction.next_check` (models.py lines 136-210): the minimum of the
candidate list, or nothing when it is empty.  The code serializes the
result with `isoformat()`, an injective rendering of the timestamp, so the
timestamp itself is returned here. -/
def next_check (a : Auction) (now : Timestamp) : Option Timestamp :=
  pymin (allChecks a now)

/-- The `Document` fields read by its three validators. -/
structure Document where
  documentType : Option String
  hash : Option String
  format : Option String
  url : String
deriving DecidableEq, Repr

/-- `Document.validate_hash` (lines 39-41) raises exactly when the
document type is `virtualDataRoom` and a hash is present. -/
def validate_hash_fails (d : Document) : Bool :=
  d.documentType == some "virtualDataRoom" && d.hash.isSome

/-- `Document.validate_format` (lines 43-47) raises when the type is not
`virtualDataRoom` and the format is missing, or the type is
`virtualDataRoom` and a format is present. -/
def validate_format_fails (d : Document) : Bool :=
  (d.documentType != some "virtualDataRoom" && !d.format.isSome) ||
    (d.documentType == some "virtualDataRoom" && d.format.isSome)

/-- `Document.validate_url` (lines 49-51) applies URL-format validation
exactly when the type is `virtualDataRoom`; the URL check itself is the
external `URLType` validator, abstracted as a predicate. -/
def validate_url_fails (isURL : String → Bool) (d : Document) : Bool :=
  d.documentType == some "virtualDataRoom" && !(isURL d.url)

/-- A document fails field-level validation when any of its three
validators raises. -/
def document_validation_fails (isURL : String → Bool) (d : Document) : Bool :=
  validate_hash_fails d || validate_format_fails d || validate_url_fails isURL d

/-- The declared default of the `Auction.status` field (models.py line
106): `default='active.tendering'`. -/
def statusDefault : String := "active.tendering"

/-- Status of an auction constructed with or without an explicit status:
schematics applies the field default when none is given. -/
def newAuctionStatus (explicit : Option String) : String :=
  explicit.getD statusDefault

/-- One day, in the abstract time units of `Timestamp.instant`, the
`timedelta(days=1)` of models.py line 114. -/
def ONE_DAY : Int := 1

/-- The fallback of `auction_tenderPeriod` (lines 114-115): a period with
no start whose end is the auction period start shifted back one business
day.  A missing `auctionPeriod` or `auctionPeriod.startDate` would raise
in Python (`validate_tenderPeriod` rules it out); that path is `none`
here. -/
def fallbackTenderPeriod (a : Auction) : Option Period :=
  match a.auctionPeriod with
  | some p =>
    match p.startDate with
    | some sd => some ⟨none, some (calculate_business_date sd (-ONE_DAY) a)⟩
    | none => none
  | none => none

/-- `Auction.auction_tenderPeriod` (lines 110-115): the stored
`tenderPeriod` when it carries an end date, else the fallback period. -/
def auction_tenderPeriod (a : Auction) : Option Period :=
  match a.tenderPeriod with
  | some tp => if tp.endDate.isSome then some tp else fallbackTenderPeriod a
  | none => fallbackTenderPeriod a

/-- `Auction.validate_tenderPeriod` (lines 128-130) raises unless the
tender period carries an end date or the auction period carries a start
date. -/
def validate_tenderPeriod_fails (a : Auction) : Bool :=
  !(match a.tenderPeriod with
    | some p => p.endDate.isSome
    | none => false) &&
  !(match a.auctionPeriod with
    | some p => p.startDate.isSome
    | none => false)

example :
    next_check
      { status := "active.tendering",
        tenderPeriod := some ⟨none, some ⟨1000, 0⟩⟩,
        auctionPeriod := none, numberOfBids := 0,
        lots := [], awards := [], complaints := [] } ⟨0, 0⟩ =
    some ⟨1000, TZ⟩ := by decide

example :
    next_check
      { status := "active.tendering",
        tenderPeriod := some ⟨none, some ⟨1000, 0⟩⟩,
        auctionPeriod := none, numberOfBids := 0,
        lots := [], awards := [],
        complaints := [⟨"claim", some ⟨0, 0⟩, none, none⟩] } ⟨0, 0⟩ =
    some ⟨3, 0⟩ := by decide

/-- Concrete input for the C1 analysis: an `active.tendering` auction
with a tender period end and one submitted claim. -/
def c1Auction : Auction :=
  { status := "active.tendering",
    tenderPeriod := some ⟨none, some ⟨1000, 0⟩⟩,
    auctionPeriod := none, numberOfBids := 0,
    lots := [], awards := [],
    complaints := [⟨"claim", some ⟨0, 0⟩, none, none⟩] }

/-- Concrete input for the C1 witness: as `c1Auction` but with no
complaints. -/
def c1WitnessAuction : Auction :=
  { status := "active.tendering",
    tenderPeriod := some ⟨none, some ⟨1000, 0⟩⟩,
    auctionPeriod := none, numberOfBids := 0,
    lots := [], awards := [], complaints := [] }

/-- Concrete input for the C2 witness: an `active.awarded` auction with
no lots, two awards whose complaint periods end at 10 and 20, the last
award unsuccessful, and no complaints anywhere. -/
def c2WitnessAuction : Auction :=
  { status := "active.awarded", tenderPeriod := none, auctionPeriod := none,
    numberOfBids := 0, lots := [],
    awards := [⟨"active", none, ⟨none, some ⟨10, 0⟩⟩, []⟩,
               ⟨"unsuccessful", none, ⟨none, some ⟨20, 0⟩⟩, []⟩],
    complaints := [] }

/-- Concrete input for the C3 witness: an `active.qualification` auction
with one active lot, two awards on that lot (the last unsuccessful,
complaint periods ending at 10 and 20) and no complaints. -/
def c3WitnessAuction : Auction :=
  { status := "active.qualification", tenderPeriod := none, auctionPeriod := none,
    numberOfBids := 0,
    lots := [⟨"lot1", "active", none, 0⟩],
    awards := [⟨"active", some "lot1", ⟨none, some ⟨10, 0⟩⟩, []⟩,
               ⟨"unsuccessful", some "lot1", ⟨none, some ⟨20, 0⟩⟩, []⟩],
    complaints := [] }

/-- Concrete input for the C4 counterexample: an active auction whose
only candidate is a complaint stand-still date stored with timezone tag
5; no `elif` branch fires. -/
def c4Auction : Auction :=
  { status := "active.qualification", tenderPeriod := none, auctionPeriod := none,
    numberOfBids := 0, lots := [], awards := [],
    complaints := [⟨"claim", some ⟨0, 5⟩, none, none⟩] }

/-- Concrete input for the C4 witness: a tendering auction whose only
candidate is its tender period end at 500. -/
def c4WitnessAuction : Auction :=
  { status := "active.tendering",
    tenderPeriod := some ⟨none, some ⟨500, 0⟩⟩,
    auctionPeriod := none, numberOfBids := 0,
    lots := [], awards := [], complaints := [] }

/-- Concrete input for the C5 counterexample: a no-lot `active.auction`
auction before its start, with one submitted claim. -/
def c5Auction : Auction :=
  { status := "active.auction", tenderPeriod := none,
    auctionPeriod := some ⟨some ⟨100, 0⟩, none⟩,
    numberOfBids := 0, lots := [], awards := [],
    complaints := [⟨"claim", some ⟨-200, 0⟩, none, none⟩] }

/-- Concrete input for the C5 witness: as `c5Auction` but with no
complaints. -/
def c5WitnessAuction : Auction :=
  { status := "active.auction", tenderPeriod := none,
    auctionPeriod := some ⟨some ⟨100, 0⟩, none⟩,
    numberOfBids := 0, lots := [], awards := [], complaints := [] }

/-- Concrete input for the C6 counterexample: a lot-based
`active.auction` auction whose single active lot starts at 100, with one
submitted claim. -/
def c6Auction : Auction :=
  { status := "active.auction", tenderPeriod := none, auctionPeriod := none,
    numberOfBids := 0,
    lots := [⟨"L1", "active", some ⟨some ⟨100, 0⟩, none⟩, 0⟩],
    awards := [],
    complaints := [⟨"claim", some ⟨-200, 0⟩, none, none⟩] }

/-- Concrete input for the C6 witness: one active lot starting at 100
without an end date, one active lot whose auction period already ended,
and one cancelled lot; no complaints. -/
def c6WitnessAuction : Auction :=
  { status := "active.auction", tenderPeriod := none, auctionPeriod := none,
    numberOfBids := 0,
    lots := [⟨"L1", "active", some ⟨some ⟨100, 0⟩, none⟩, 0⟩,
             ⟨"L2", "active", some ⟨some ⟨5, 0⟩, some ⟨6, 0⟩⟩, 0⟩,
             ⟨"L3", "cancelled", some ⟨some ⟨7, 0⟩, none⟩, 0⟩],
    awards := [], complaints := [] }

/-- Concrete input for the C7 witness: an active auction with one
top-level submitted claim and one award-nested answered complaint. -/
def c7WitnessAuction : Auction :=
  { status := "active.tendering", tenderPeriod := none, auctionPeriod := none,
    numberOfBids := 0, lots := [],
    awards := [⟨"active", none, ⟨none, none⟩, [⟨"answered", none, some ⟨7, 0⟩, none⟩]⟩],
    complaints := [⟨"claim", some ⟨0, 0⟩, none, none⟩] }

/-- Concrete input for the C10 witness, endDate branch: a stored tender
period with an end date. -/
def c10WitnessAuctionA : Auction :=
  { status := "draft", tenderPeriod := some ⟨none, some ⟨9, 0⟩⟩,
    auctionPeriod := none, numberOfBids := 0,
    lots := [], awards := [], complaints := [] }

/-- Concrete input for the C10 witness, fallback branch: no tender
period, an auction period starting at 50. -/
def c10WitnessAuctionB : Auction :=
  { status := "draft", tenderPeriod := none,
    auctionPeriod := some ⟨some ⟨50, 0⟩, none⟩, numberOfBids := 0,
    lots := [], awards := [], complaints := [] }

/-! ## General lemmas about the Python minimum and maximum -/

theorem foldl_min_eq_or_mem (ts : List Timestamp) (t : Timestamp) :
    ts.foldl (fun m x => if x.instant < m.instant then x else m) t = t ∨
      ts.foldl (fun m x => if x.instant < m.instant then x else m) t ∈ ts := by
  induction ts generalizing t with
  | nil => exact Or.inl rfl
  | cons y ys ih =>
    simp only [List.foldl_cons]
    rcases ih (if y.instant < t.instant then y else t) with h | h
    · rw [h]
      by_cases hy : y.instant < t.instant
      · rw [if_pos hy]; exact Or.inr (List.mem_cons_self y ys)
      · rw [if_neg hy]; exact Or.inl rfl
    · exact Or.inr (List.mem_cons_of_mem y h)

theorem foldl_min_le (ts : List Timestamp) (t : Timestamp) :
    (ts.foldl (fun m x => if x.instant < m.instant then x else m) t).instant ≤ t.instant ∧
      ∀ u ∈ ts, (ts.foldl (fun m x => if x.instant < m.instant then x else m) t).instant ≤ u.instant := by
  induction ts generalizing t with
  | nil => exact ⟨le_refl _, by intro u hu; cases hu⟩
  | cons y ys ih =>
    simp only [List.foldl_cons]
    obtain ⟨h1, h2⟩ := ih (if y.instant < t.instant then y else t)
    have hbase : (if y.instant < t.instant then y else t).instant ≤ t.instant := by
      by_cases hy : y.instant < t.instant
      · rw [if_pos hy]; omega
      · rw [if_neg hy]
    have hbase2 : (if y.instant < t.instant then y else t).instant ≤ y.instant := by
      by_cases hy : y.instant < t.instant
      · rw [if_pos hy]
      · rw [if_neg hy]; omega
    refine ⟨le_trans h1 hbase, ?_⟩
    intro u hu
    rcases List.mem_cons.mp hu with rfl | hu
    · exact le_trans h1 hbase2
    · exact h2 u hu

/-- Python `min` of a non-empty list: a member that is a lower bound. -/
theorem pymin_mem_and_le (l : List Timestamp) (t : Timestamp) (h : pymin l = some t) :
    t ∈ l ∧ ∀ u ∈ l, t.instant ≤ u.instant := by
  match l with
  | [] => cases h
  | x :: xs =>
    have ht : xs.foldl (fun m y => if y.instant < m.instant then y else m) x = t :=
      Option.some.inj h
    constructor
    · rcases foldl_min_eq_or_mem xs x with he | he
      · rw [ht] at he; rw [he]; exact List.mem_cons_self x xs
      · rw [ht] at he; exact List.mem_cons_of_mem x he
    · intro u hu
      obtain ⟨h1, h2⟩ := foldl_min_le xs x
      rw [ht] at h1 h2
      rcases List.mem_cons.mp hu with rfl | hu
      · exact h1
      · exact h2 u hu

theorem pymin_eq_none_iff (l : List Timestamp) : pymin l = none ↔ l = [] := by
  match l with
  | [] => exact ⟨fun _ => rfl, fun _ => rfl⟩
  | x :: xs =>
    constructor
    · intro h
      cases h
    · intro h
      cases h

theorem foldl_max_eq_or_mem (ts : List Timestamp) (t : Timestamp) :
    ts.foldl (fun m x => if m.instant < x.instant then x else m) t = t ∨
      ts.foldl (fun m x => if m.instant < x.instant then x else m) t ∈ ts := by
  induction ts generalizing t with
  | nil => exact Or.inl rfl
  | cons y ys ih =>
    simp only [List.foldl_cons]
    rcases ih (if t.instant < y.instant then y else t) with h | h
    · rw [h]
      by_cases hy : t.instant < y.instant
      · rw [if_pos hy]; exact Or.inr (List.mem_cons_self y ys)
      · rw [if_neg hy]; exact Or.inl rfl
    · exact Or.inr (List.mem_cons_of_mem y h)

theorem foldl_max_ge (ts : List Timestamp) (t : Timestamp) :
    t.instant ≤ (ts.foldl (fun m x => if m.instant < x.instant then x else m) t).instant ∧
      ∀ u ∈ ts, u.instant ≤ (ts.foldl (fun m x => if m.instant < x.instant then x else m) t).instant := by
  induction ts generalizing t with
  | nil => exact ⟨le_refl _, by intro u hu; cases hu⟩
  | cons y ys ih =>
    simp only [List.foldl_cons]
    obtain ⟨h1, h2⟩ := ih (if t.instant < y.instant then y else t)
    have hbase : t.instant ≤ (if t.instant < y.instant then y else t).instant := by
      by_cases hy : t.instant < y.instant
      · rw [if_pos hy]; omega
      · rw [if_neg hy]
    have hbase2 : y.instant ≤ (if t.instant < y.instant then y else t).instant := by
      by_cases hy : t.instant < y.instant
      · rw [if_pos hy]
      · rw [if_neg hy]; omega
    refine ⟨le_trans hbase h1, ?_⟩
    intro u hu
    rcases List.mem_cons.mp hu with rfl | hu
    · exact le_trans hbase2 h1
    · exact h2 u hu

/-- Python `max` of a non-empty list: a member that is an upper bound. -/
theorem pymax_mem_and_ge (l : List Timestamp) (t : Timestamp) (h : pymax l = some t) :
    t ∈ l ∧ ∀ u ∈ l, u.instant ≤ t.instant := by
  match l with
  | [] => cases h
  | x :: xs =>
    have ht : xs.foldl (fun m y => if m.instant < y.instant then y else m) x = t :=
      Option.some.inj h
    constructor
    · rcases foldl_max_eq_or_mem xs x with he | he
      · rw [ht] at he; rw [he]; exact List.mem_cons_self x xs
      · rw [ht] at he; exact List.mem_cons_of_mem x he
    · intro u hu
      obtain ⟨h1, h2⟩ := foldl_max_ge xs x
      rw [ht] at h1 h2
      rcases List.mem_cons.mp hu with rfl | hu
      · exact h1
      · exact h2 u hu

theorem pymax_eq_none_iff (l : List Timestamp) : pymax l = none ↔ l = [] := by
  match l with
  | [] => exact ⟨fun _ => rfl, fun _ => rfl⟩
  | x :: xs =>
    constructor
    · intro h
      cases h
    · intro h
      cases h

/-! ## Lemmas about the complaint stand-still block -/

/-- A complaint that is neither a submitted claim nor an answered
complaint with an answer date contributes no stand-still candidate. -/
theorem complaintCheck_eq_nil (a : Auction) (c : Complaint)
    (h1 : c.status = "claim" → c.dateSubmitted = none)
    (h2 : c.status = "answered" → c.dateAnswered = none) :
    complaintCheck a c = [] := by
  unfold complaintCheck
  by_cases hs : c.status = "claim"
  · simp [hs, h1 hs]
  · by_cases ha : c.status = "answered"
    · simp [ha, h2 ha]
    · simp [beq_eq_false_iff_ne, hs, ha]

/-- When no complaint anywhere contributes a candidate, the complaint
block is empty. -/
theorem complaintChecks_eq_nil (a : Auction)
    (h1 : ∀ c ∈ a.complaints, c.status = "claim" → c.dateSubmitted = none)
    (h2 : ∀ c ∈ a.complaints, c.status = "answered" → c.dateAnswered = none)
    (h3 : ∀ aw ∈ a.awards, ∀ c ∈ aw.complaints, c.status = "claim" → c.dateSubmitted = none)
    (h4 : ∀ aw ∈ a.awards, ∀ c ∈ aw.complaints, c.status = "answered" → c.dateAnswered = none) :
    complaintChecks a = [] := by
  unfold complaintChecks
  rw [List.append_eq_nil]
  constructor
  · rw [List.flatMap_eq_nil_iff]
    intro c hc
    exact complaintCheck_eq_nil a c (h1 c hc) (h2 c hc)
  · rw [List.flatMap_eq_nil_iff]
    intro aw haw
    rw [List.flatMap_eq_nil_iff]
    intro c hc
    exact complaintCheck_eq_nil a c (h3 aw haw c hc) (h4 aw haw c hc)

theorem startswith_tendering : startswith "active.tendering" "active" = true := by decide

theorem startswith_auction : startswith "active.auction" "active" = true := by decide

theorem startswith_awarded : startswith "active.awarded" "active" = true := by decide

theorem startswith_qualification : startswith "active.qualification" "active" = true := by decide

/-! ## Branch selection lemmas -/

theorem cond_a_false_of_status (a : Auction) (h : a.status ≠ "active.tendering") :
    cond_a a = false := by
  have hb : (a.status == "active.tendering") = false := beq_eq_false_iff_ne.mpr h
  simp [cond_a, hb]

theorem cond_b_false_of_status (a : Auction) (h : a.status ≠ "active.auction") :
    cond_b a = false := by
  have hb : (a.status == "active.auction") = false := beq_eq_false_iff_ne.mpr h
  simp [cond_b, hb]

theorem cond_c_false_of_status (a : Auction) (h : a.status ≠ "active.auction") :
    cond_c a = false := by
  have hb : (a.status == "active.auction") = false := beq_eq_false_iff_ne.mpr h
  simp [cond_c, hb]

theorem cond_c_false_of_no_lots (a : Auction) (h : a.lots = []) :
    cond_c a = false := by
  simp [cond_c, h]

theorem cond_d_false_of_status (a : Auction) (h : a.status ≠ "active.awarded") :
    cond_d a = false := by
  have hb : (a.status == "active.awarded") = false := beq_eq_false_iff_ne.mpr h
  simp [cond_d, hb]

theorem cond_d_false_of_lots (a : Auction) (h : a.lots ≠ []) :
    cond_d a = false := by
  have hb : a.lots.isEmpty = false := by
    cases hl : a.lots with
    | nil => exact absurd hl h
    | cons x xs => rfl
  simp [cond_d, hb]

theorem cond_e_false_of_status (a : Auction) (h1 : a.status ≠ "active.qualification")
    (h2 : a.status ≠ "active.awarded") : cond_e a = false := by
  have hb1 : (a.status == "active.qualification") = false := beq_eq_false_iff_ne.mpr h1
  have hb2 : (a.status == "active.awarded") = false := beq_eq_false_iff_ne.mpr h2
  simp [cond_e, hb1, hb2]

theorem cond_e_false_of_no_lots (a : Auction) (h : a.lots = []) :
    cond_e a = false := by
  simp [cond_e, h]

theorem mainChecks_eq_branch_a (a : Auction) (now : Timestamp) (h : cond_a a = true) :
    mainChecks a now = branch_a a := by
  simp [mainChecks, h]

theorem mainChecks_eq_branch_b (a : Auction) (now : Timestamp)
    (ha : cond_a a = false) (hb : cond_b a = true) :
    mainChecks a now = branch_b a now := by
  simp [mainChecks, ha, hb]

theorem mainChecks_eq_branch_c (a : Auction) (now : Timestamp)
    (ha : cond_a a = false) (hb : cond_b a = false) (hc : cond_c a = true) :
    mainChecks a now = branch_c a now := by
  simp [mainChecks, ha, hb, hc]

theorem mainChecks_eq_branch_d (a : Auction) (now : Timestamp)
    (ha : cond_a a = false) (hb : cond_b a = false) (hc : cond_c a = false)
    (hd : cond_d a = true) :
    mainChecks a now = branch_d a := by
  simp [mainChecks, ha, hb, hc, hd]

theorem mainChecks_eq_branch_e (a : Auction) (now : Timestamp)
    (ha : cond_a a = false) (hb : cond_b a = false) (hc : cond_c a = false)
    (hd : cond_d a = false) (he : cond_e a = true) :
    mainChecks a now = branch_e a := by
  simp [mainChecks, ha, hb, hc, hd, he]

/-! ## Claim C1 -/

/-- C1 fails as stated: `c1Auction` is in `active.tendering` with
`tenderPeriod.endDate` set, yet `next_check` does not return that end
date converted to `TZ` — the stand-still candidate of its submitted
claim is earlier and wins, so the result is not independent of the
complaints. -/
theorem c1_counterexample :
    c1Auction.status = "active.tendering" ∧
    c1Auction.tenderPeriod = some ⟨none, some ⟨1000, 0⟩⟩ ∧
    next_check c1Auction ⟨0, 0⟩ ≠ some (Timestamp.astimezone ⟨1000, 0⟩ TZ) ∧
    next_check c1Auction ⟨0, 0⟩ = some ⟨3, 0⟩ := by
  refine ⟨rfl, rfl, ?_, ?_⟩ <;> decide

/-- C1 (amended): for every auction with status `active.tendering` and
`tenderPeriod.endDate` set, in which no complaint (top-level or nested in
any award) is a claim carrying a submission date or an answered complaint
carrying an answer date, `next_check` returns exactly
`tenderPeriod.endDate` converted to `TZ`, regardless of any other field
values. -/
theorem c1_theorem (a : Auction) (now : Timestamp) (tp : Period) (ed : Timestamp)
    (hst : a.status = "active.tendering")
    (htp : a.tenderPeriod = some tp)
    (hed : tp.endDate = some ed)
    (hc1 : ∀ c ∈ a.complaints, c.status = "claim" → c.dateSubmitted = none)
    (hc2 : ∀ c ∈ a.complaints, c.status = "answered" → c.dateAnswered = none)
    (hc3 : ∀ aw ∈ a.awards, ∀ c ∈ aw.complaints, c.status = "claim" → c.dateSubmitted = none)
    (hc4 : ∀ aw ∈ a.awards, ∀ c ∈ aw.complaints, c.status = "answered" → c.dateAnswered = none) :
    next_check a now = some (ed.astimezone TZ) := by
  have hca : cond_a a = true := by
    simp [cond_a, hst, htp, hed]
  have hmain : mainChecks a now = [ed.astimezone TZ] := by
    rw [mainChecks_eq_branch_a a now hca]
    simp [branch_a, htp, hed]
  have hcc : complaintChecks a = [] := complaintChecks_eq_nil a hc1 hc2 hc3 hc4
  unfold next_check allChecks
  rw [hmain, hst, hcc, startswith_tendering]
  simp [pymin]

/-- Closed instance of the amended C1 at a concrete tendering auction. -/
theorem c1_theorem_witness :
    next_check c1WitnessAuction ⟨0, 0⟩ = some (Timestamp.astimezone ⟨1000, 0⟩ TZ) :=
  c1_theorem c1WitnessAuction ⟨0, 0⟩ ⟨none, some ⟨1000, 0⟩⟩ ⟨1000, 0⟩ rfl rfl rfl
    (by intro c hc; cases hc) (by intro c hc; cases hc)
    (by intro aw haw; cases haw) (by intro aw haw; cases haw)

/-! ## Claim C2 -/

/-- C2: for every no-lot auction in `active.awarded` with no blocking
top-level or award-nested complaint, the `elif` chain contributes exactly
the maximum of the awards stand-still end dates, and does so precisely
when at least one award carries a `complaintPeriod.endDate` and the last
award in sequence is `unsuccessful`; the added candidate is a member of
the collected end dates and an upper bound of them. -/
theorem c2_theorem (a : Auction) (now : Timestamp)
    (hlots : a.lots = [])
    (hst : a.status = "active.awarded")
    (hc1 : ∀ c ∈ a.complaints, c.status ∉ block_complaint_status)
    (hc2 : ∀ aw ∈ a.awards, ∀ c ∈ aw.complaints, c.status ∉ block_complaint_status) :
    (mainChecks a now =
      if lastAwardStatus a.awards = "unsuccessful"
      then (pymax (standStillEnds a.awards)).toList else []) ∧
    (∀ m, pymax (standStillEnds a.awards) = some m →
      m ∈ standStillEnds a.awards ∧ ∀ u ∈ standStillEnds a.awards, u.instant ≤ m.instant) := by
  have hcd : cond_d a = true := by
    simp [cond_d, hlots, hst]
    exact ⟨hc1, hc2⟩
  have hmain : mainChecks a now = branch_d a :=
    mainChecks_eq_branch_d a now
      (cond_a_false_of_status a (by rw [hst]; decide))
      (cond_b_false_of_status a (by rw [hst]; decide))
      (cond_c_false_of_no_lots a hlots)
      hcd
  constructor
  · rw [hmain]
    cases hp : pymax (standStillEnds a.awards) with
    | none => simp [branch_d, hp]
    | some m =>
      by_cases hls : lastAwardStatus a.awards = "unsuccessful"
      · simp [branch_d, hp, hls]
      · have hb : (lastAwardStatus a.awards == "unsuccessful") = false :=
          beq_eq_false_iff_ne.mpr hls
        simp [branch_d, hp, hls, hb]
  · intro m hm
    exact pymax_mem_and_ge (standStillEnds a.awards) m hm

/-- Closed instance of C2: with end dates 10 and 20 and an unsuccessful
last award, the chain contributes exactly the maximum, 20. -/
theorem c2_theorem_witness :
    mainChecks c2WitnessAuction ⟨0, 0⟩ = [Timestamp.mk 20 TZ] := by
  have h := c2_theorem c2WitnessAuction ⟨0, 0⟩ rfl rfl (by decide) (by decide)
  rw [h.1]
  decide

/-! ## Claim C3 -/

/-- The per-lot blocking check on top-level complaints, in propositional
form. -/
theorem any_block_related_eq_false_iff (cs : List Complaint) (lid : String) :
    (cs.any (fun i => block_complaint_status.contains i.status && i.relatedLot == some lid)) = false ↔
      ∀ c ∈ cs, ¬(c.status ∈ block_complaint_status ∧ c.relatedLot = some lid) := by
  simp [List.any_eq_false]

/-- The per-lot blocking check on award-nested complaints, in
propositional form. -/
theorem any_nested_block_eq_false_iff (aws : List Award) :
    (aws.any (fun aw => aw.complaints.any (fun i => block_complaint_status.contains i.status))) = false ↔
      ∀ aw ∈ aws, ∀ c ∈ aw.complaints, c.status ∉ block_complaint_status := by
  simp [List.any_eq_false]

/-- The per-lot body of the fifth branch, restated declaratively: a lot
contributes the maximum of its awards stand-still end dates exactly when
it is active, no blocking complaint is related to it, none of its awards
complaints is blocking, and its last award is unsuccessful. -/
theorem lotAwardCheck_eq (a : Auction) (lot : Lot) :
    lotAwardCheck a lot =
      if lot.status = "active"
          ∧ (∀ c ∈ a.complaints, ¬(c.status ∈ block_complaint_status ∧ c.relatedLot = some lot.id))
          ∧ (∀ aw ∈ lotAwards a lot, ∀ c ∈ aw.complaints, c.status ∉ block_complaint_status)
      then
        (if lastAwardStatus (lotAwards a lot) = "unsuccessful"
         then (pymax (standStillEnds (lotAwards a lot))).toList else [])
      else [] := by
  by_cases hs : lot.status = "active"
  · by_cases hp1 : ∀ c ∈ a.complaints, ¬(c.status ∈ block_complaint_status ∧ c.relatedLot = some lot.id)
    · by_cases hp2 : ∀ aw ∈ lotAwards a lot, ∀ c ∈ aw.complaints, c.status ∉ block_complaint_status
      · have b1 := (any_block_related_eq_false_iff a.complaints lot.id).mpr hp1
        have b2 := (any_nested_block_eq_false_iff (lotAwards a lot)).mpr hp2
        rw [if_pos ⟨hs, hp1, hp2⟩]
        cases hp : pymax (standStillEnds (lotAwards a lot)) with
        | none =>
          simp [lotAwardCheck, hs, b1, b2, hp]
        | some m =>
          by_cases hls : lastAwardStatus (lotAwards a lot) = "unsuccessful"
          · simp [lotAwardCheck, hs, b1, b2, hp, hls]
            exact ⟨fun c hc hb hr => hp1 c hc ⟨hb, hr⟩, hp2⟩
          · have hb : (lastAwardStatus (lotAwards a lot) == "unsuccessful") = false :=
              beq_eq_false_iff_ne.mpr hls
            simp [lotAwardCheck, hs, b1, b2, hp, hls, hb]
      · rw [if_neg (fun h => hp2 h.2.2)]
        simp [lotAwardCheck, hs]
        intro h1 h2
        exact absurd h2 hp2
    · rw [if_neg (fun h => hp1 h.2.1)]
      simp [lotAwardCheck, hs]
      intro h1 h2
      exact absurd (fun c hc p => h1 c hc p.1 p.2) hp1
  · have hb : (lot.status != "active") = true := by
      rw [bne_iff_ne]
      exact hs
    rw [if_neg (fun h => hs h.1)]
    simp [lotAwardCheck, hb]

/-- C3: for every lot-based auction in `active.qualification` or
`active.awarded` with no blocking top-level complaint unrelated to a lot,
the `elif` chain contributes, per lot, the maximum of that lots awards
stand-still end dates exactly when the lot is active, no blocking
top-level complaint relates to it, none of its awards complaints is
blocking, some such end date exists, and the lots last award is
unsuccessful; each added candidate is a member and an upper bound of the
lots collected end dates. -/
theorem c3_theorem (a : Auction) (now : Timestamp)
    (hlots : a.lots ≠ [])
    (hst : a.status = "active.qualification" ∨ a.status = "active.awarded")
    (hc : ∀ c ∈ a.complaints, c.relatedLot = none → c.status ∉ block_complaint_status) :
    (mainChecks a now = a.lots.flatMap (fun lot =>
      if lot.status = "active"
          ∧ (∀ c ∈ a.complaints, ¬(c.status ∈ block_complaint_status ∧ c.relatedLot = some lot.id))
          ∧ (∀ aw ∈ lotAwards a lot, ∀ c ∈ aw.complaints, c.status ∉ block_complaint_status)
      then
        (if lastAwardStatus (lotAwards a lot) = "unsuccessful"
         then (pymax (standStillEnds (lotAwards a lot))).toList else [])
      else [])) ∧
    (∀ lot ∈ a.lots, ∀ m, pymax (standStillEnds (lotAwards a lot)) = some m →
      m ∈ standStillEnds (lotAwards a lot) ∧
        ∀ u ∈ standStillEnds (lotAwards a lot), u.instant ≤ m.instant) := by
  have hempty : a.lots.isEmpty = false := by
    cases hl : a.lots with
    | nil => exact absurd hl hlots
    | cons x xs => rfl
  have hor : (a.status == "active.qualification" || a.status == "active.awarded") = true := by
    rcases hst with h | h <;> simp [h]
  have hsa : a.status ≠ "active.tendering" := by
    rcases hst with h | h <;> (rw [h]; decide)
  have hsb : a.status ≠ "active.auction" := by
    rcases hst with h | h <;> (rw [h]; decide)
  have hce : cond_e a = true := by
    simp [cond_e, hempty, hor]
    intro c hcm hblock
    rcases ho : c.relatedLot with _ | lid
    · exact absurd hblock (hc c hcm ho)
    · exact fun h => Option.noConfusion h
  have hmain : mainChecks a now = branch_e a :=
    mainChecks_eq_branch_e a now
      (cond_a_false_of_status a hsa)
      (cond_b_false_of_status a hsb)
      (cond_c_false_of_status a hsb)
      (cond_d_false_of_lots a hlots)
      hce
  constructor
  · rw [hmain]
    unfold branch_e
    congr 1
    exact funext (lotAwardCheck_eq a)
  · intro lot _ m hm
    exact pymax_mem_and_ge (standStillEnds (lotAwards a lot)) m hm

/-- Closed instance of C3: the single active lot contributes the maximum
of its two award stand-still ends, 20. -/
theorem c3_theorem_witness :
    mainChecks c3WitnessAuction ⟨0, 0⟩ = [Timestamp.mk 20 TZ] := by
  have h := c3_theorem c3WitnessAuction ⟨0, 0⟩ (by decide) (Or.inl rfl) (by decide)
  rw [h.1]
  decide

/-! ## Claim C4 -/

/-- Every collected stand-still end date carries the `TZ` tag. -/
theorem standStillEnds_tz (aws : List Award) : ∀ t ∈ standStillEnds aws, t.tz = TZ := by
  intro t ht
  simp only [standStillEnds, List.mem_filterMap, Option.map_eq_some'] at ht
  obtain ⟨aw, _, e, _, rfl⟩ := ht
  rfl

theorem branch_a_tz (a : Auction) : ∀ t ∈ branch_a a, t.tz = TZ := by
  intro t ht
  unfold branch_a at ht
  repeat' split at ht
  all_goals first
    | (have he := List.mem_singleton.mp ht; subst he; rfl)
    | cases ht

theorem branch_b_tz (a : Auction) (now : Timestamp) : ∀ t ∈ branch_b a now, t.tz = TZ := by
  intro t ht
  unfold branch_b at ht
  repeat' split at ht
  all_goals first
    | (have he := List.mem_singleton.mp ht; subst he; rfl)
    | cases ht

theorem lotAuctionCheck_tz (now : Timestamp) (lot : Lot) :
    ∀ t ∈ lotAuctionCheck now lot, t.tz = TZ := by
  intro t ht
  unfold lotAuctionCheck at ht
  repeat' split at ht
  all_goals first
    | (have he := List.mem_singleton.mp ht; subst he; rfl)
    | cases ht

theorem branch_c_tz (a : Auction) (now : Timestamp) : ∀ t ∈ branch_c a now, t.tz = TZ := by
  intro t ht
  unfold branch_c at ht
  rw [List.mem_flatMap] at ht
  obtain ⟨lot, _, hm⟩ := ht
  exact lotAuctionCheck_tz now lot t hm

theorem branch_d_tz (a : Auction) : ∀ t ∈ branch_d a, t.tz = TZ := by
  intro t ht
  unfold branch_d at ht
  split at ht
  next m heq =>
    split at ht
    · have he := List.mem_singleton.mp ht
      subst he
      exact standStillEnds_tz a.awards t (pymax_mem_and_ge _ t heq).1
    · cases ht
  next => cases ht

theorem lotAwardCheck_tz (a : Auction) (lot : Lot) :
    ∀ t ∈ lotAwardCheck a lot, t.tz = TZ := by
  intro t ht
  rw [lotAwardCheck_eq] at ht
  split at ht
  · split at ht
    · rw [Option.mem_toList, Option.mem_def] at ht
      exact standStillEnds_tz _ t (pymax_mem_and_ge _ t ht).1
    · cases ht
  · cases ht

theorem branch_e_tz (a : Auction) : ∀ t ∈ branch_e a, t.tz = TZ := by
  intro t ht
  unfold branch_e at ht
  rw [List.mem_flatMap] at ht
  obtain ⟨lot, _, hm⟩ := ht
  exact lotAwardCheck_tz a lot t hm

/-- Every candidate produced by the `elif` chain is normalized to `TZ`. -/
theorem mainChecks_tz (a : Auction) (now : Timestamp) :
    ∀ t ∈ mainChecks a now, t.tz = TZ := by
  intro t ht
  unfold mainChecks at ht
  split_ifs at ht
  · exact branch_a_tz a t ht
  · exact branch_b_tz a now t ht
  · exact branch_c_tz a now t ht
  · exact branch_d_tz a t ht
  · exact branch_e_tz a t ht
  · cases ht

/-- C4 fails as stated: on `c4Auction` the only candidate is the
complaint stand-still date, which `next_check` returns with its stored
timezone tag 5, not normalized to `TZ`. -/
theorem c4_counterexample :
    next_check c4Auction ⟨0, 0⟩ = some ⟨3, 5⟩ ∧ (Timestamp.mk 3 5).tz ≠ TZ := by
  constructor
  · decide
  · decide

/-- C4 (amended): `next_check` returns nothing exactly when the candidate
set is empty, and otherwise returns a candidate that is a lower bound of
all candidates (the minimum); every candidate of the `elif` chain
(branches a-e) is normalized to `TZ`, but the complaint stand-still
candidates are appended as produced by `calculate_business_date`, without
timezone normalization, so the returned timestamp need not carry `TZ`. -/
theorem c4_theorem (a : Auction) (now : Timestamp) :
    (next_check a now = none ↔ allChecks a now = []) ∧
    (∀ t, next_check a now = some t →
      t ∈ allChecks a now ∧ ∀ u ∈ allChecks a now, t.instant ≤ u.instant) ∧
    (∀ t ∈ mainChecks a now, t.tz = TZ) := by
  refine ⟨pymin_eq_none_iff (allChecks a now), ?_, mainChecks_tz a now⟩
  intro t ht
  exact pymin_mem_and_le (allChecks a now) t ht

/-- Closed instance of the amended C4: on a one-candidate auction the
returned timestamp is a member of, and a lower bound of, the candidate
list. -/
theorem c4_theorem_witness :
    Timestamp.mk 500 TZ ∈ allChecks c4WitnessAuction ⟨0, 0⟩ ∧
    ∀ u ∈ allChecks c4WitnessAuction ⟨0, 0⟩, (Timestamp.mk 500 TZ).instant ≤ u.instant :=
  (c4_theorem c4WitnessAuction ⟨0, 0⟩).2.1 ⟨500, TZ⟩ (by decide)

/-! ## Claims C5 and C6 -/

theorem cond_b_false_of_lots (a : Auction) (h : a.lots ≠ []) : cond_b a = false := by
  have hempty : a.lots.isEmpty = false := by
    cases hl : a.lots with
    | nil => exact absurd hl h
    | cons x xs => rfl
  simp [cond_b, hempty]

/-- When no complaint anywhere contributes a stand-still candidate,
`next_check` is the minimum of the `elif` chain candidates alone. -/
theorem next_check_no_complaint_candidates (a : Auction) (now : Timestamp)
    (hc1 : ∀ c ∈ a.complaints, c.status = "claim" → c.dateSubmitted = none)
    (hc2 : ∀ c ∈ a.complaints, c.status = "answered" → c.dateAnswered = none)
    (hc3 : ∀ aw ∈ a.awards, ∀ c ∈ aw.complaints, c.status = "claim" → c.dateSubmitted = none)
    (hc4 : ∀ aw ∈ a.awards, ∀ c ∈ aw.complaints, c.status = "answered" → c.dateAnswered = none) :
    next_check a now = pymin (mainChecks a now) := by
  have hcc : complaintChecks a = [] := complaintChecks_eq_nil a hc1 hc2 hc3 hc4
  unfold next_check allChecks
  rw [hcc]
  cases h : startswith a.status "active" <;> simp

/-- C5 fails as stated: `c5Auction` is a no-lot `active.auction` auction
with a pending start at 100 and `now` at 0, yet `next_check` does not
return the start date — the stand-still candidate of its submitted claim
is earlier and wins. -/
theorem c5_counterexample :
    c5Auction.lots = [] ∧
    c5Auction.status = "active.auction" ∧
    c5Auction.auctionPeriod = some ⟨some ⟨100, 0⟩, none⟩ ∧
    next_check c5Auction ⟨0, 0⟩ ≠ some (Timestamp.astimezone ⟨100, 0⟩ TZ) ∧
    next_check c5Auction ⟨0, 0⟩ = some ⟨-197, 0⟩ := by
  refine ⟨rfl, rfl, rfl, ?_, ?_⟩ <;> decide

/-- C5 (amended): for every no-lot auction in `active.auction` with
`auctionPeriod.startDate` set and `auctionPeriod.endDate` unset, in which
no complaint contributes a stand-still candidate, `next_check` returns
the start date (in `TZ`) when `now` is before it, and otherwise the
computed round end (in `TZ`) when `now` is before that. -/
theorem c5_theorem (a : Auction) (now : Timestamp) (p : Period) (sd : Timestamp)
    (hlots : a.lots = [])
    (hst : a.status = "active.auction")
    (hap : a.auctionPeriod = some p)
    (hsd : p.startDate = some sd)
    (hed : p.endDate = none)
    (hc1 : ∀ c ∈ a.complaints, c.status = "claim" → c.dateSubmitted = none)
    (hc2 : ∀ c ∈ a.complaints, c.status = "answered" → c.dateAnswered = none)
    (hc3 : ∀ aw ∈ a.awards, ∀ c ∈ aw.complaints, c.status = "claim" → c.dateSubmitted = none)
    (hc4 : ∀ aw ∈ a.awards, ∀ c ∈ aw.complaints, c.status = "answered" → c.dateAnswered = none) :
    (now.instant < sd.instant → next_check a now = some (sd.astimezone TZ)) ∧
    (¬now.instant < sd.instant →
      now.instant < (calc_auction_end_time a.numberOfBids sd).instant →
      next_check a now = some ((calc_auction_end_time a.numberOfBids sd).astimezone TZ)) := by
  have hcb : cond_b a = true := by
    simp [cond_b, hlots, hst, hap, hsd, hed]
  have hmain : mainChecks a now = branch_b a now :=
    mainChecks_eq_branch_b a now (cond_a_false_of_status a (by rw [hst]; decide)) hcb
  have hnc : next_check a now = pymin (mainChecks a now) :=
    next_check_no_complaint_candidates a now hc1 hc2 hc3 hc4
  constructor
  · intro hlt
    rw [hnc, hmain]
    simp [branch_b, hap, hsd, hlt, pymin]
  · intro hge hlt2
    rw [hnc, hmain]
    simp [branch_b, hap, hsd, hge, Timestamp.astimezone, hlt2, pymin]

/-- Closed instance of the amended C5: before the start the start date is
returned; after it but before the round end, the round end is returned. -/
theorem c5_theorem_witness :
    next_check c5WitnessAuction ⟨0, 0⟩ = some (Timestamp.astimezone ⟨100, 0⟩ TZ) ∧
    next_check c5WitnessAuction ⟨150, 0⟩ =
      some ((calc_auction_end_time 0 ⟨100, 0⟩).astimezone TZ) := by
  constructor
  · exact (c5_theorem c5WitnessAuction ⟨0, 0⟩ ⟨some ⟨100, 0⟩, none⟩ ⟨100, 0⟩ rfl rfl rfl rfl rfl
      (by decide) (by decide) (by decide) (by decide)).1 (by decide)
  · exact (c5_theorem c5WitnessAuction ⟨150, 0⟩ ⟨some ⟨100, 0⟩, none⟩ ⟨100, 0⟩ rfl rfl rfl rfl rfl
      (by decide) (by decide) (by decide) (by decide)).2 (by decide) (by decide)

/-- C6 fails as stated: `c6Auction` is a lot-based `active.auction`
auction whose single active lot yields deadline 100, yet `next_check`
does not return the minimum over the lot deadlines — the stand-still
candidate of its submitted claim is earlier and wins. -/
theorem c6_counterexample :
    c6Auction.status = "active.auction" ∧
    c6Auction.lots ≠ [] ∧
    pymin (c6Auction.lots.flatMap (lotAuctionCheck ⟨0, 0⟩)) =
      some (Timestamp.astimezone ⟨100, 0⟩ TZ) ∧
    next_check c6Auction ⟨0, 0⟩ ≠ some (Timestamp.astimezone ⟨100, 0⟩ TZ) ∧
    next_check c6Auction ⟨0, 0⟩ = some ⟨-197, 0⟩ := by
  refine ⟨rfl, ?_, ?_, ?_, ?_⟩ <;> decide

/-- C6 (amended): for every lot-based auction in `active.auction` in
which no complaint contributes a stand-still candidate, `next_check` is
the minimum of the per-lot deadlines; a lot that is not active
contributes nothing, a lot whose `auctionPeriod.endDate` is set
contributes nothing, and an active lot with a start and no end
contributes its start date when `now` is before it, else the computed
round end when `now` is before that, else nothing. -/
theorem c6_theorem (a : Auction) (now : Timestamp)
    (hlots : a.lots ≠ [])
    (hst : a.status = "active.auction")
    (hc1 : ∀ c ∈ a.complaints, c.status = "claim" → c.dateSubmitted = none)
    (hc2 : ∀ c ∈ a.complaints, c.status = "answered" → c.dateAnswered = none)
    (hc3 : ∀ aw ∈ a.awards, ∀ c ∈ aw.complaints, c.status = "claim" → c.dateSubmitted = none)
    (hc4 : ∀ aw ∈ a.awards, ∀ c ∈ aw.complaints, c.status = "answered" → c.dateAnswered = none) :
    (next_check a now = pymin (a.lots.flatMap (lotAuctionCheck now))) ∧
    (∀ lot ∈ a.lots, lot.status ≠ "active" → lotAuctionCheck now lot = []) ∧
    (∀ lot ∈ a.lots, ∀ p, lot.auctionPeriod = some p → p.endDate.isSome →
      lotAuctionCheck now lot = []) ∧
    (∀ lot ∈ a.lots, ∀ p sd, lot.auctionPeriod = some p → p.startDate = some sd →
      p.endDate = none → lot.status = "active" →
      lotAuctionCheck now lot =
        if now.instant < sd.instant then [sd.astimezone TZ]
        else if now.instant < (calc_auction_end_time lot.numberOfBids sd).instant then
          [(calc_auction_end_time lot.numberOfBids sd).astimezone TZ]
        else []) := by
  have hempty : a.lots.isEmpty = false := by
    cases hl : a.lots with
    | nil => exact absurd hl hlots
    | cons x xs => rfl
  have hcc : cond_c a = true := by
    simp [cond_c, hempty, hst]
  have hmain : mainChecks a now = branch_c a now :=
    mainChecks_eq_branch_c a now
      (cond_a_false_of_status a (by rw [hst]; decide))
      (cond_b_false_of_lots a hlots)
      hcc
  refine ⟨?_, ?_, ?_, ?_⟩
  · rw [next_check_no_complaint_candidates a now hc1 hc2 hc3 hc4, hmain]
    rfl
  · intro lot _ hs
    have hb : (lot.status != "active") = true := bne_iff_ne.mpr hs
    simp [lotAuctionCheck, hb]
  · intro lot _ p hp hed
    by_cases hsb : (lot.status != "active") = true
    · simp [lotAuctionCheck, hsb]
    · simp [lotAuctionCheck, hsb, hp, hed]
      cases p.startDate <;> rfl
  · intro lot _ p sd hp hsd hed hs
    have hb : (lot.status != "active") = false := by
      rw [bne_eq_false_iff_eq]
      exact hs
    simp [lotAuctionCheck, hb, hp, hsd, hed, Timestamp.astimezone]

/-- Closed instance of the amended C6: only the active, still-open lot
contributes, so the minimum deadline is its start, 100. -/
theorem c6_theorem_witness :
    next_check c6WitnessAuction ⟨0, 0⟩ = some (Timestamp.mk 100 TZ) := by
  have h := c6_theorem c6WitnessAuction ⟨0, 0⟩ (by decide) rfl
    (by decide) (by decide) (by decide) (by decide)
  rw [h.1]
  decide

/-! ## Claim C7 -/

/-- A submitted claim, and an answered complaint with an answer date,
contribute their business-date candidate. -/
theorem complaintCheck_mem (a : Auction) (c : Complaint) (d : Timestamp)
    (h : (c.status = "claim" ∧ c.dateSubmitted = some d) ∨
         (c.status = "answered" ∧ c.dateAnswered = some d)) :
    calculate_business_date d COMPLAINT_STAND_STILL_TIME a ∈ complaintCheck a c := by
  rcases h with ⟨hs, hd⟩ | ⟨hs, hd⟩
  · simp [complaintCheck, hs, hd]
  · simp [complaintCheck, hs, hd]

/-- C7: whenever the auction status starts with `active`, the candidate
list is the `elif` chain candidates followed by the complaint block, and
every top-level or award-nested complaint that is a claim with a
submission date, or answered with an answer date, contributes
`calculate_business_date(date, COMPLAINT_STAND_STILL_TIME, auction)` to
the candidates, on top of whichever branch fired. -/
theorem c7_theorem (a : Auction) (now : Timestamp)
    (hact : startswith a.status "active" = true) :
    (allChecks a now = mainChecks a now ++ complaintChecks a) ∧
    (∀ c ∈ a.complaints, ∀ d : Timestamp,
      (c.status = "claim" ∧ c.dateSubmitted = some d) ∨
        (c.status = "answered" ∧ c.dateAnswered = some d) →
      calculate_business_date d COMPLAINT_STAND_STILL_TIME a ∈ allChecks a now) ∧
    (∀ aw ∈ a.awards, ∀ c ∈ aw.complaints, ∀ d : Timestamp,
      (c.status = "claim" ∧ c.dateSubmitted = some d) ∨
        (c.status = "answered" ∧ c.dateAnswered = some d) →
      calculate_business_date d COMPLAINT_STAND_STILL_TIME a ∈ allChecks a now) := by
  have h1 : allChecks a now = mainChecks a now ++ complaintChecks a := by
    simp [allChecks, hact]
  refine ⟨h1, ?_, ?_⟩
  · intro c hc d hd
    rw [h1, List.mem_append]
    right
    unfold complaintChecks
    rw [List.mem_append]
    left
    rw [List.mem_flatMap]
    exact ⟨c, hc, complaintCheck_mem a c d hd⟩
  · intro aw haw c hc d hd
    rw [h1, List.mem_append]
    right
    unfold complaintChecks
    rw [List.mem_append]
    right
    rw [List.mem_flatMap]
    refine ⟨aw, haw, ?_⟩
    rw [List.mem_flatMap]
    exact ⟨c, hc, complaintCheck_mem a c d hd⟩

/-- Closed instance of C7: both the top-level claim and the award-nested
answered complaint contribute their stand-still candidate. -/
theorem c7_theorem_witness :
    calculate_business_date ⟨0, 0⟩ COMPLAINT_STAND_STILL_TIME c7WitnessAuction ∈
      allChecks c7WitnessAuction ⟨0, 0⟩ ∧
    calculate_business_date ⟨7, 0⟩ COMPLAINT_STAND_STILL_TIME c7WitnessAuction ∈
      allChecks c7WitnessAuction ⟨0, 0⟩ := by
  have h := c7_theorem c7WitnessAuction ⟨0, 0⟩ (by decide)
  constructor
  · exact h.2.1 ⟨"claim", some ⟨0, 0⟩, none, none⟩ (by decide) ⟨0, 0⟩ (Or.inl ⟨rfl, rfl⟩)
  · exact h.2.2 ⟨"active", none, ⟨none, none⟩, [⟨"answered", none, some ⟨7, 0⟩, none⟩]⟩
      (by decide) ⟨"answered", none, some ⟨7, 0⟩, none⟩ (by decide) ⟨7, 0⟩ (Or.inr ⟨rfl, rfl⟩)

/-! ## Claim C8 -/

/-- C8 fails as stated: an auction constructed without an explicit
status does not get status `draft`. -/
theorem c8_counterexample : ¬ newAuctionStatus none = "draft" := by decide

/-- C8 (amended): an auction constructed without an explicit status gets
the field default `active.tendering` (models.py line 106). -/
theorem c8_theorem : newAuctionStatus none = "active.tendering" := rfl

/-! ## Claim C9 -/

/-- C9: document field validation fails exactly when the type is
`virtualDataRoom` and a hash is present, or the type is `virtualDataRoom`
and a format is present, or the type is `virtualDataRoom` and the URL
fails URL-format validation, or the type is not `virtualDataRoom` and the
format is absent. -/
theorem c9_theorem (isURL : String → Bool) (d : Document) :
    document_validation_fails isURL d = true ↔
      ((d.documentType = some "virtualDataRoom" ∧ d.hash.isSome = true) ∨
       (d.documentType = some "virtualDataRoom" ∧ d.format.isSome = true) ∨
       (d.documentType = some "virtualDataRoom" ∧ isURL d.url = false) ∨
       (d.documentType ≠ some "virtualDataRoom" ∧ d.format = none)) := by
  unfold document_validation_fails validate_hash_fails validate_format_fails validate_url_fails
  by_cases hdt : d.documentType = some "virtualDataRoom"
  · cases hh : d.hash <;> cases hf : d.format <;> cases hu : isURL d.url <;>
      simp [hdt, hh, hf, hu]
  · have hb : (d.documentType == some "virtualDataRoom") = false := beq_eq_false_iff_ne.mpr hdt
    have hb2 : (d.documentType != some "virtualDataRoom") = true := bne_iff_ne.mpr hdt
    cases hf : d.format <;> simp [hb, hb2, hdt, hf]

/-! ## Claim C10 -/

/-- C10: the serialized `tenderPeriod` is the stored one whenever it
carries an end date; otherwise, with `auctionPeriod.startDate` set (as
`validate_tenderPeriod` guarantees), it is a period with no start whose
end is the auction period start shifted back one business day. -/
theorem c10_theorem (a : Auction) :
    (∀ tp, a.tenderPeriod = some tp → tp.endDate.isSome = true →
      auction_tenderPeriod a = some tp) ∧
    (∀ p sd, (a.tenderPeriod = none ∨ ∃ tp, a.tenderPeriod = some tp ∧ tp.endDate = none) →
      a.auctionPeriod = some p → p.startDate = some sd →
      auction_tenderPeriod a =
        some ⟨none, some (calculate_business_date sd (-ONE_DAY) a)⟩) := by
  constructor
  · intro tp htp hed
    simp [auction_tenderPeriod, htp, hed]
  · intro p sd hno hap hsd
    rcases hno with h | ⟨tp, htp, hed⟩
    · simp [auction_tenderPeriod, h, fallbackTenderPeriod, hap, hsd]
    · simp [auction_tenderPeriod, htp, hed, fallbackTenderPeriod, hap, hsd]

/-- Closed instance of C10 exercising both branches. -/
theorem c10_theorem_witness :
    auction_tenderPeriod c10WitnessAuctionA = some ⟨none, some ⟨9, 0⟩⟩ ∧
    auction_tenderPeriod c10WitnessAuctionB =
      some ⟨none, some (calculate_business_date ⟨50, 0⟩ (-ONE_DAY) c10WitnessAuctionB)⟩ :=
  ⟨(c10_theorem c10WitnessAuctionA).1 ⟨none, some ⟨9, 0⟩⟩ rfl rfl,
   (c10_theorem c10WitnessAuctionB).2 ⟨some ⟨50, 0⟩, none⟩ ⟨50, 0⟩ (Or.inl rfl) rfl rfl⟩
